import Mathlib

/-!
Verification of the TankSplit core pipeline (src/src/App.jsx):
the text-to-record parser `parseLinesToPairs`, the rounding helper `round2`,
the share computation `computed`, the settlement `summary` string, and the
copyable text `copyTikkieText`.

Strings are modelled as Lean `String` / `List Char`; JavaScript numbers are
modelled as rationals (`ℚ`), with `Number.EPSILON = 2^-52` and
`Math.round y = ⌊y + 1/2⌋` (ties toward positive infinity, as in ECMAScript).
All inputs exercised by the claims are ASCII/Latin-1, where the `i` flag's
case canonicalisation of the character class is the identity; the trailing
optional `(?:\s*km)?` group of the regex can affect neither match success nor
the two captures (it is final and optional), so it is not modelled.
-/

set_option maxRecDepth 100000

namespace TankSplit

/-- A parsed record `{name, km}` as produced by `parseLinesToPairs`
(`km` comes from `parseInt` on a digit string, hence a natural number). -/
structure PairRec where
  name : String
  km : Nat
deriving DecidableEq

/-- Character class `[A-Za-zÀ-ÿ0-9_\- ]` of the name capture in
`nameKmRegex = /([A-Za-zÀ-ÿ0-9_\- ]{2,30})\s*[:\-]?\s*(\d{1,6})(?:\s*km)?/i`. -/
def isNameChar (c : Char) : Bool :=
  (65 ≤ c.toNat && c.toNat ≤ 90) ||    -- A-Z
  (97 ≤ c.toNat && c.toNat ≤ 122) ||   -- a-z
  (192 ≤ c.toNat && c.toNat ≤ 255) ||  -- À-ÿ
  (48 ≤ c.toNat && c.toNat ≤ 57) ||    -- 0-9
  c.toNat = 95 || c.toNat = 45 || c.toNat = 32  -- underscore, hyphen, space

/-- ASCII digit class `\d`. -/
def isDigitChar (c : Char) : Bool :=
  48 ≤ c.toNat && c.toNat ≤ 57

/-- JavaScript `\s` / `String.trim` whitespace (the characters that can occur
in the inputs in scope: TAB LF VT FF CR SP NBSP BOM). -/
def isWsChar (c : Char) : Bool :=
  c.toNat = 32 || (9 ≤ c.toNat && c.toNat ≤ 13) || c.toNat = 160 || c.toNat = 65279

/-- JavaScript `String.prototype.trim`. -/
def trimChars (cs : List Char) : List Char :=
  ((cs.dropWhile isWsChar).reverse.dropWhile isWsChar).reverse

/-- Evaluation of `parseInt(ds, 10)` on a non-empty digit string. -/
def digitsToNat (ds : List Char) : Nat :=
  ds.foldl (fun a c => 10 * a + (c.toNat - 48)) 0

/-- Splitting `text.split(/\r?\n/)`: each `\n`, optionally preceded by `\r`, delimits;
a lone `\r` stays in its chunk. -/
def splitLinesAux : List Char → List Char → List (List Char)
  | [], acc => [acc.reverse]
  | '\r' :: '\n' :: t, acc => acc.reverse :: splitLinesAux t []
  | '\n' :: t, acc => acc.reverse :: splitLinesAux t []
  | c :: t, acc => splitLinesAux t (c :: acc)

def splitLines (cs : List Char) : List (List Char) :=
  splitLinesAux cs []

/-- Splitting `line.split(/\s+/)` on an already-trimmed line: maximal runs of
non-whitespace characters. -/
def splitTokensAux : List Char → List Char → List (List Char)
  | [], acc => if acc.isEmpty then [] else [acc.reverse]
  | c :: t, acc =>
    if isWsChar c then
      if acc.isEmpty then splitTokensAux t [] else acc.reverse :: splitTokensAux t []
    else
      splitTokensAux t (c :: acc)

def splitTokens (cs : List Char) : List (List Char) :=
  splitTokensAux cs []

/-- After the name capture: `\s*[:\-]?\s*(\d{1,6})`.  The two `\s*` and the
optional separator are deterministic here: yielding characters back can never
turn a failure into a success, since a digit is neither whitespace nor `:`/`-`.
Returns the digit capture (greedy, at most 6 digits). -/
def matchRest (cs : List Char) : Option (List Char) :=
  let cs1 := cs.dropWhile isWsChar
  let cs2 := match cs1 with
    | c :: t => if c = ':' ∨ c = '-' then t else cs1
    | [] => cs1
  let cs3 := cs2.dropWhile isWsChar
  let ds := (cs3.takeWhile isDigitChar).take 6
  if ds.isEmpty then none else some ds

/-- Greedy backtracking of the `{2,30}` name capture: try the longest
length first, then shorter, down to 2.  The caller guarantees the first
`n` characters are in the name class.  Returns (name capture, digit capture). -/
def tryLen (cs : List Char) : Nat → Option (List Char × List Char)
  | 0 => none
  | 1 => none
  | n + 2 =>
    match matchRest (cs.drop (n + 2)) with
    | some ds => some (cs.take (n + 2), ds)
    | none => tryLen cs (n + 1)

/-- Attempt `nameKmRegex` at the start of `cs`. -/
def tryAt (cs : List Char) : Option (List Char × List Char) :=
  tryLen cs (min 30 (cs.takeWhile isNameChar).length)

/-- Matching `line.match(nameKmRegex)`: the regex is unanchored, so the engine tries
successive start positions left to right and returns the first match. -/
def findMatch : List Char → Option (List Char × List Char)
  | [] => none
  | c :: rest =>
    match tryAt (c :: rest) with
    | some r => some r
    | none => findMatch rest

/-- The token-pairing fallback: walk the tokens two at a time; strip
non-digits from the second token; emit a record when the result is a
non-empty digit string (`/^\d+$/` then always holds).  A trailing unpaired
token is dropped (`i < tokens.length - 1`). -/
def tokenPairs : List (List Char) → List PairRec
  | a :: b :: rest =>
    let ds := b.filter isDigitChar
    (if ds.isEmpty then [] else [⟨String.mk a, digitsToNat ds⟩]) ++ tokenPairs rest
  | _ => []

/-- One line of the loop body: primary pattern first (`parseInt` on a
`\d{1,6}` capture is never `NaN`, so the `isNaN` guard always passes),
token pairing otherwise. -/
def parseLine (line : List Char) : List PairRec :=
  match findMatch line with
  | some (nm, ds) => [⟨String.mk (trimChars nm), digitsToNat ds⟩]
  | none => tokenPairs (splitTokens line)

/-- Trimmed non-empty lines, `text.split(/\r?\n/).map(l => l.trim()).filter(Boolean)`. -/
def linesOf (text : String) : List (List Char) :=
  ((splitLines text.data).map trimChars).filter (fun l => !l.isEmpty)

/-- Function `parseLinesToPairs` from src/src/App.jsx. -/
def parseLinesToPairs (text : String) : List PairRec :=
  (linesOf text).flatMap parseLine

/-- The constant `Number.EPSILON`. -/
def eps : ℚ := 1 / 2 ^ 52

/-- JavaScript `Math.round`: nearest integer, ties toward positive infinity
(`Rat.floor` is used rather than `Int.floor` so that the definition
evaluates; the two agree, see `jsRound_eq_floor`). -/
def jsRound (y : ℚ) : ℤ := (y + 1 / 2).floor

theorem jsRound_eq_floor (y : ℚ) : jsRound y = ⌊y + 1 / 2⌋ := by
  rw [jsRound, Rat.floor_def', Rat.floor_def]

/-- Function `round2` from src/src/App.jsx: `Math.round((x+Number.EPSILON)*100)/100`. -/
def round2 (x : ℚ) : ℚ := (jsRound ((x + eps) * 100) : ℚ) / 100

/-- One editable row `{name, km}` (user edits store arbitrary numbers). -/
structure Row where
  name : String
  km : ℚ
deriving DecidableEq

/-- One entry of the derived `computed` array. -/
structure Share where
  name : String
  km : ℚ
  pct : ℚ
  euros : ℚ
deriving DecidableEq

/-- The total `const totalKm = rows.reduce((s, r) => s + (Number(r.km)||0), 0)`
(the `Number(r.km)||0` coercion is the identity on the rational model). -/
def totalKm (rows : List Row) : ℚ :=
  rows.foldl (fun s r => s + r.km) 0

/-- The derived `const computed = rows.map(...)` array from src/src/App.jsx. -/
def computed (rows : List Row) (amount : ℚ) : List Share :=
  rows.map fun r =>
    let pct := if totalKm rows > 0 then r.km / totalKm rows else 0
    { name := r.name, km := r.km, pct := round2 (pct * 100), euros := round2 (amount * pct) }

/-- Template-literal rendering `${q}` of the numbers that occur in the
summary strings.  Every value interpolated by the claims is a multiple of
0.01, where ECMAScript number-to-string printing yields the decimal
expansion with trailing zeros trimmed; other rationals (which never occur
at the claims' inputs) fall back to a fraction rendering. -/
def renderNum (q : ℚ) : String :=
  if 100 % q.den = 0 then
    let m : ℤ := q.num * ((100 / q.den : ℕ) : ℤ)
    let sign := if m < 0 then "-" else ""
    let a := m.natAbs
    let ip := a / 100
    let fr := a % 100
    if fr = 0 then sign ++ toString ip
    else if fr % 10 = 0 then sign ++ toString ip ++ "." ++ toString (fr / 10)
    else if fr < 10 then sign ++ toString ip ++ ".0" ++ toString fr
    else sign ++ toString ip ++ "." ++ toString fr
  else
    toString q.num ++ "/" ++ toString q.den

/-- The `summary` string computed in src/src/App.jsx (lines 131-152). -/
def summary (rows : List Row) (amount : ℚ) : String :=
  if rows.length = 2 ∧ totalKm rows > 0 then
    match computed rows amount with
    | a :: b :: _ =>
      if round2 |a.euros - b.euros| = 0 then
        "Geen betaling nodig — bedragen zijn gelijk."
      else if a.euros > b.euros then
        b.name ++ " moet €" ++ renderNum (round2 (a.euros - b.euros)) ++ " aan " ++
          a.name ++ " betalen."
      else
        a.name ++ " moet €" ++ renderNum (round2 (b.euros - a.euros)) ++ " aan " ++
          b.name ++ " betalen."
    | _ => ""
  else if totalKm rows = 0 then
    "Voer kilometers in om een samenvatting te krijgen."
  else
    "Bekijk de bedragen per persoon. Voor betalingen, vergelijk wie minder heeft bijgedragen en regel onderling de betaling."

/-- One line `${c.name}: ${c.km} km — ${c.pct}% — €${c.euros}\n` of the
copyable text. -/
def shareLine (c : Share) : String :=
  c.name ++ ": " ++ renderNum c.km ++ " km — " ++ renderNum c.pct ++ "% — €" ++
    renderNum c.euros ++ "\n"

/-- The text built by `copyTikkieText` in src/src/App.jsx (lines 154-162):
header, then `computed.forEach` appending one line per share, then the
summary sentence. -/
def copyTikkieText (amount : ℚ) (shares : List Share) (summ : String) : String :=
  let t0 := "Tankbeurt — totaal €" ++ renderNum amount ++ "\n\n"
  let t1 := shares.foldl (fun t c => t ++ shareLine c) t0
  t1 ++ "\nSamenvatting: " ++ summ

/-- Modelled from the spec's words (§4.2): rounding "to the nearest cent
using standard rounding (half away from zero)" — the nearest multiple of
0.01, with an exact half-cent tie resolved away from zero.  Used only to
compare the spec's description of `round2` with the code's `round2`. -/
def roundTiesAwayCent (x : ℚ) : ℚ :=
  if 0 ≤ x then ((100 * x + 1 / 2).floor : ℚ) / 100
  else -(((100 * -x + 1 / 2).floor : ℚ) / 100)

/-! Helper lemmas about `round2` -/

theorem eps_nonneg : (0 : ℚ) ≤ eps := by norm_num [eps]

theorem eps_small : 100 * eps + 1 / 2 < 1 := by norm_num [eps]

/-- Rounding `round2` is the identity on integer multiples of `1/100`. -/
theorem round2_cent (m : ℤ) : round2 ((m : ℚ) / 100) = (m : ℚ) / 100 := by
  rw [round2, jsRound_eq_floor,
    show ((m : ℚ) / 100 + eps) * 100 + 1 / 2 = (m : ℚ) + (100 * eps + 1 / 2) by ring,
    Int.floor_int_add,
    show ⌊(100 * eps + 1 / 2 : ℚ)⌋ = 0 from Int.floor_eq_zero_iff.mpr
      ⟨by norm_num [eps], eps_small⟩]
  push_cast
  ring

theorem round2_zero : round2 0 = 0 := by
  have h := round2_cent 0
  simpa using h

/-- Every value of `round2` is an integer number of cents. -/
theorem round2_isCent (x : ℚ) : ∃ m : ℤ, round2 x = (m : ℚ) / 100 :=
  ⟨jsRound ((x + eps) * 100), rfl⟩

/-- Rounding `round2` moves its argument by at most half a cent plus the epsilon. -/
theorem round2_sub_abs_le (x : ℚ) : |round2 x - x| ≤ 1 / 200 + eps := by
  have h1 : ((jsRound ((x + eps) * 100) : ℤ) : ℚ) ≤ (x + eps) * 100 + 1 / 2 := by
    rw [jsRound_eq_floor]; exact Int.floor_le _
  have h2 : (x + eps) * 100 + 1 / 2 - 1 < ((jsRound ((x + eps) * 100) : ℤ) : ℚ) := by
    rw [jsRound_eq_floor]; exact Int.sub_one_lt_floor _
  have he : (0 : ℚ) ≤ eps := eps_nonneg
  rw [round2, abs_le]
  constructor <;> [linarith; linarith]

/-- After the epsilon shift, an exact half-cent tie always rounds toward
positive infinity: up for nonnegative arguments (away from zero), but toward
zero for negative ones. -/
theorem round2_tie (k : ℤ) : round2 ((k : ℚ) / 100 + 1 / 200) = ((k : ℚ) + 1) / 100 := by
  rw [round2, jsRound_eq_floor,
    show ((k : ℚ) / 100 + 1 / 200 + eps) * 100 + 1 / 2 = (k : ℚ) + (1 + 100 * eps) by ring,
    Int.floor_int_add,
    show ⌊(1 + 100 * eps : ℚ)⌋ = 1 from Int.floor_eq_iff.mpr
      ⟨by norm_num [eps], by norm_num [eps]⟩]
  push_cast
  ring

/-- C7, counterexample: the spec's "half away from zero (for negative x as
well as positive)" fails at `x = -1/8` (an exact half-cent tie): away from
zero gives `-0.13`, while `round2` gives `-0.12`. -/
theorem c7_round2_counterexample :
    roundTiesAwayCent (-(1 : ℚ) / 8) = -13 / 100 ∧
    round2 (-(1 : ℚ) / 8) = -12 / 100 ∧
    round2 (-(1 : ℚ) / 8) ≠ roundTiesAwayCent (-(1 : ℚ) / 8) := by
  refine ⟨?_, ?_, ?_⟩ <;> with_unfolding_all decide

/-- C7, amended: `round2` always returns an integer number of cents, within
half a cent plus `Number.EPSILON` of its argument; an exact half-cent tie
rounds toward positive infinity — away from zero for nonnegative arguments,
toward zero for negative ones. -/
theorem c7_round2_amended (x : ℚ) :
    (∃ m : ℤ, round2 x = (m : ℚ) / 100) ∧
    |round2 x - x| ≤ 1 / 200 + eps ∧
    (∀ k : ℤ, x = (k : ℚ) / 100 + 1 / 200 → round2 x = ((k : ℚ) + 1) / 100) := by
  refine ⟨round2_isCent x, round2_sub_abs_le x, ?_⟩
  rintro k rfl
  exact round2_tie k

theorem c7_round2_amended_witness :
    round2 ((1 : ℚ) / 200) = 1 / 100 ∧ round2 (-(1 : ℚ) / 200) = 0 := by
  constructor
  · have h := (c7_round2_amended ((1 : ℚ) / 200)).2.2 0 (by norm_num)
    simpa using h
  · have h := (c7_round2_amended (-(1 : ℚ) / 200)).2.2 (-1) (by norm_num)
    simpa using h

/-! Parser claims -/

/-- C1 (code bug): the spec's primary-pattern examples.  `"Pieter: 100 km"`
parses as documented, but on `"Jan 150"` and `"Anna - 75"` the greedy name
class of `nameKmRegex` (which itself contains digits, hyphens and spaces)
absorbs all but the last digit, so the code produces `{Jan 15, 0}` and
`{Anna - 7, 5}` instead of `{Jan, 150}` and `{Anna, 75}`. -/
theorem c1_primary_examples :
    parseLinesToPairs "Jan 150" = [⟨"Jan 15", 0⟩] ∧
    parseLinesToPairs "Pieter: 100 km" = [⟨"Pieter", 100⟩] ∧
    parseLinesToPairs "Anna - 75" = [⟨"Anna - 7", 5⟩] := by
  refine ⟨?_, ?_, ?_⟩ <;> decide

/-- C2 (code bug): on `"Jan 150 Pieter 100"` the primary pattern matches
(its name class accepts spaces and digits), so the token-pairing fallback is
never reached and a single record `{Jan 150 Pieter 10, 0}` is returned
instead of the two documented records.  The fallback behaves as described
only on lines the regex cannot match at all, where it pairs tokens two at a
time, strips non-digits from the second token, and drops a trailing
unpaired token. -/
theorem c2_token_pairing :
    parseLinesToPairs "Jan 150 Pieter 100" = [⟨"Jan 150 Pieter 10", 0⟩] ∧
    parseLinesToPairs "a@ @1@ b@ @2@" = [⟨"a@", 1⟩, ⟨"b@", 2⟩] ∧
    parseLinesToPairs "a@ @1@ c@" = [⟨"a@", 1⟩] := by
  refine ⟨?_, ?_, ?_⟩ <;> decide

theorem flatMap_parseLine_eq_nil (ls : List (List Char)) :
    ls.flatMap parseLine = [] ↔ ∀ l ∈ ls, parseLine l = [] := by
  induction ls with
  | nil => simp
  | cons a t ih => simp [List.flatMap_cons, ih]

/-- C9: parsing is total by construction; the empty string and strings in
which no line yields a primary match or a valid token pair return `[]`, and
in general the result is empty exactly when every (trimmed, non-empty) line
contributes no record. -/
theorem c9_parse_total :
    parseLinesToPairs "" = [] ∧
    parseLinesToPairs "12 Jan" = [] ∧
    ∀ t : String, parseLinesToPairs t = [] ↔ ∀ l ∈ linesOf t, parseLine l = [] := by
  refine ⟨by decide, by decide, fun t => ?_⟩
  rw [parseLinesToPairs]
  exact flatMap_parseLine_eq_nil (linesOf t)

theorem c9_parse_total_witness : parseLinesToPairs "@@" = [] :=
  (c9_parse_total.2.2 "@@").mpr (by decide)

/-- C10: the regex is applied as an unanchored substring search (characters
before and after the match are ignored), the primary path emits exactly one
record per matching line even when the line holds several name/number
pairs, the greedy name capture can absorb part of the digit run, and the
token-pairing fallback runs exactly on the lines with no match at all. -/
theorem c10_regex_scan :
    (∀ line : List Char, (findMatch line).isSome = true → (parseLine line).length = 1) ∧
    (∀ line : List Char, findMatch line = none →
      parseLine line = tokenPairs (splitTokens line)) ∧
    parseLinesToPairs "@@@Pieter: 100km@@@" = [⟨"Pieter", 100⟩] ∧
    parseLinesToPairs "Ab 12" = [⟨"Ab 1", 2⟩] ∧
    parseLinesToPairs "Jan: 1 Piet: 2" = [⟨"Jan", 1⟩] := by
  refine ⟨fun line h => ?_, fun line h => ?_, by decide, by decide, by decide⟩
  · rw [parseLine]
    cases hm : findMatch line with
    | none => rw [hm] at h; simp at h
    | some r => cases r with | mk nm ds => simp
  · simp [parseLine, h]

theorem c10_regex_scan_witness :
    (parseLine ("Ab 12".data)).length = 1 ∧
    parseLine ("@@".data) = tokenPairs (splitTokens ("@@".data)) :=
  ⟨c10_regex_scan.1 ("Ab 12".data) (by decide),
   c10_regex_scan.2.1 ("@@".data) (by decide)⟩

/-! Share computation claims -/

theorem totalKm_eq_sum (rows : List Row) : totalKm rows = (rows.map Row.km).sum := by
  have aux : ∀ (l : List Row) (init : ℚ),
      l.foldl (fun s r => s + r.km) init = init + (l.map Row.km).sum := by
    intro l
    induction l with
    | nil => intro init; simp
    | cons a t ih =>
      intro init
      rw [List.foldl_cons, ih (init + a.km), List.map_cons, List.sum_cons]
      ring
  simpa using aux rows 0

/-- Rewriting `computed` as a single `map` with the claim's formulas. -/
theorem computed_eq_map (rows : List Row) (A : ℚ) :
    computed rows A = rows.map (fun r =>
      { name := r.name, km := r.km,
        pct := if totalKm rows > 0 then round2 (100 * r.km / totalKm rows) else 0,
        euros := if totalKm rows > 0 then round2 (A * r.km / totalKm rows) else 0 }) := by
  unfold computed
  refine List.map_congr_left (fun r _ => ?_)
  by_cases h : totalKm rows > 0
  · simp only [if_pos h]
    rw [show r.km / totalKm rows * 100 = 100 * r.km / totalKm rows from by ring,
      show A * (r.km / totalKm rows) = A * r.km / totalKm rows from by ring]
  · simp only [if_neg h]
    rw [zero_mul, mul_zero, round2_zero]

/-- C4: `computed` returns, per record in order, the rounded scaled
percentage and the rounded amount, with total distance the sum of the
distances; when the total distance is zero every percentage and amount
is zero (no division by zero). -/
theorem c4_compute_shares (rows : List Row) (A : ℚ) :
    totalKm rows = (rows.map Row.km).sum ∧
    computed rows A = rows.map (fun r =>
      { name := r.name, km := r.km,
        pct := if totalKm rows > 0 then round2 (100 * r.km / totalKm rows) else 0,
        euros := if totalKm rows > 0 then round2 (A * r.km / totalKm rows) else 0 }) ∧
    (totalKm rows = 0 →
      (computed rows A).map Share.pct = rows.map (fun _ => (0 : ℚ)) ∧
      (computed rows A).map Share.euros = rows.map (fun _ => (0 : ℚ))) := by
  refine ⟨totalKm_eq_sum rows, computed_eq_map rows A, fun h0 => ?_⟩
  rw [computed_eq_map rows A]
  constructor <;>
    · rw [List.map_map]
      refine List.map_congr_left fun r _ => ?_
      simp [Function.comp, h0]

theorem c4_compute_shares_witness :
    (computed [⟨"P", 0⟩, ⟨"Q", 0⟩] 50).map Share.pct = [0, 0] ∧
    (computed [⟨"P", 0⟩, ⟨"Q", 0⟩] 50).map Share.euros = [0, 0] := by
  have h := (c4_compute_shares [⟨"P", 0⟩, ⟨"Q", 0⟩] 50).2.2 (by with_unfolding_all decide)
  exact ⟨h.1.trans (by rfl), h.2.trans (by rfl)⟩

theorem sum_map_round2_sub_le (l : List ℚ) :
    |(l.map round2).sum - l.sum| ≤ (l.length : ℚ) * (1 / 200 + eps) := by
  induction l with
  | nil => simp
  | cons x t ih =>
    simp only [List.map_cons, List.sum_cons, List.length_cons]
    have h1 := round2_sub_abs_le x
    have h2 : |round2 x + (t.map round2).sum - (x + t.sum)| ≤
        |round2 x - x| + |(t.map round2).sum - t.sum| := by
      have h3 := abs_add (round2 x - x) ((t.map round2).sum - t.sum)
      calc |round2 x + (t.map round2).sum - (x + t.sum)|
          = |(round2 x - x) + ((t.map round2).sum - t.sum)| := by ring_nf
        _ ≤ _ := h3
    push_cast
    linarith

theorem sum_map_mul_km (c : ℚ) (l : List Row) :
    (l.map (fun r => c * r.km)).sum = c * (l.map Row.km).sum := by
  induction l with
  | nil => simp
  | cons a t ih => simp [List.map_cons, List.sum_cons, ih, mul_add]

/-- C6: with positive total distance, the rounded per-row amounts sum to
within `0.01 * count` of the amount, and the rounded percentages sum
to within `0.01 * count` of 100. -/
theorem c6_rounding_sum (rows : List Row) (A : ℚ) (h0 : rows ≠ [])
    (hD : totalKm rows > 0) :
    |((computed rows A).map Share.euros).sum - A| ≤ (rows.length : ℚ) * (1 / 100) ∧
    |((computed rows A).map Share.pct).sum - 100| ≤ (rows.length : ℚ) * (1 / 100) := by
  have hDne : totalKm rows ≠ 0 := ne_of_gt hD
  have hkey : ∀ c : ℚ,
      |((rows.map (fun r => c * r.km / totalKm rows)).map round2).sum - c| ≤
        (rows.length : ℚ) * (1 / 100) := by
    intro c
    have hsum : (rows.map (fun r => c * r.km / totalKm rows)).sum = c := by
      have h1 : rows.map (fun r => c * r.km / totalKm rows) =
          rows.map (fun r => (c / totalKm rows) * r.km) :=
        List.map_congr_left fun r _ => by ring
      rw [h1, sum_map_mul_km, ← totalKm_eq_sum, div_mul_cancel₀ c hDne]
    have hb := sum_map_round2_sub_le (rows.map (fun r => c * r.km / totalKm rows))
    rw [hsum, List.length_map] at hb
    have hle : (1 / 200 + eps : ℚ) ≤ 1 / 100 := by norm_num [eps]
    calc |((rows.map (fun r => c * r.km / totalKm rows)).map round2).sum - c|
        ≤ (rows.length : ℚ) * (1 / 200 + eps) := hb
      _ ≤ (rows.length : ℚ) * (1 / 100) :=
          mul_le_mul_of_nonneg_left hle (Nat.cast_nonneg rows.length)
  have heuros : (computed rows A).map Share.euros =
      (rows.map (fun r => A * r.km / totalKm rows)).map round2 := by
    rw [computed_eq_map]
    simp [List.map_map, Function.comp, hD]
  have hpct : (computed rows A).map Share.pct =
      (rows.map (fun r => 100 * r.km / totalKm rows)).map round2 := by
    rw [computed_eq_map]
    simp [List.map_map, Function.comp, hD]
  exact ⟨heuros ▸ hkey A, hpct ▸ hkey 100⟩

theorem c6_rounding_sum_witness :
    |((computed [⟨"A", 150⟩, ⟨"B", 50⟩] 100).map Share.euros).sum - 100| ≤
      (([⟨"A", 150⟩, ⟨"B", 50⟩] : List Row).length : ℚ) * (1 / 100) ∧
    |((computed [⟨"A", 150⟩, ⟨"B", 50⟩] 100).map Share.pct).sum - 100| ≤
      (([⟨"A", 150⟩, ⟨"B", 50⟩] : List Row).length : ℚ) * (1 / 100) :=
  c6_rounding_sum [⟨"A", 150⟩, ⟨"B", 50⟩] 100 (by simp) (by with_unfolding_all decide)

/-! Settlement claims -/

/-- C5: with zero total distance the summary always asks for input
(whatever the record count, including exactly two all-zero records); with
positive total distance and a record count other than two it is always the
generic advice; and outside the two-records-positive-distance case no other
sentence is ever produced. -/
theorem c5_directive_fallbacks (rows : List Row) (A : ℚ) :
    (totalKm rows = 0 →
      summary rows A = "Voer kilometers in om een samenvatting te krijgen.") ∧
    (totalKm rows > 0 → rows.length ≠ 2 →
      summary rows A = "Bekijk de bedragen per persoon. Voor betalingen, vergelijk wie minder heeft bijgedragen en regel onderling de betaling.") ∧
    (rows.length ≠ 2 ∨ ¬totalKm rows > 0 →
      summary rows A = "Voer kilometers in om een samenvatting te krijgen." ∨
      summary rows A = "Bekijk de bedragen per persoon. Voor betalingen, vergelijk wie minder heeft bijgedragen en regel onderling de betaling.") := by
  refine ⟨fun h0 => ?_, fun hD hl => ?_, fun h => ?_⟩
  · rw [summary, if_neg (fun hc => absurd hc.2 (by rw [h0]; exact lt_irrefl 0)),
      if_pos h0]
  · rw [summary, if_neg (fun hc => hl hc.1), if_neg (ne_of_gt hD)]
  · rw [summary, if_neg (fun hc => h.elim (fun h1 => h1 hc.1) (fun h2 => h2 hc.2))]
    by_cases hz : totalKm rows = 0
    · exact Or.inl (if_pos hz)
    · exact Or.inr (if_neg hz)

theorem c5_directive_fallbacks_witness :
    summary [⟨"A", 0⟩, ⟨"B", 0⟩] 50 =
      "Voer kilometers in om een samenvatting te krijgen." ∧
    summary [⟨"A", 1⟩, ⟨"B", 1⟩, ⟨"C", 1⟩] 50 =
      "Bekijk de bedragen per persoon. Voor betalingen, vergelijk wie minder heeft bijgedragen en regel onderling de betaling." :=
  ⟨(c5_directive_fallbacks [⟨"A", 0⟩, ⟨"B", 0⟩] 50).1 (by with_unfolding_all decide),
   (c5_directive_fallbacks [⟨"A", 1⟩, ⟨"B", 1⟩, ⟨"C", 1⟩] 50).2.1
     (by with_unfolding_all decide) (by decide)⟩

/-- C3: for exactly two records with positive total distance, the computed
difference `round2 |a.euros - b.euros|` is zero exactly when the two
amounts are equal, in which case the no-payment sentence is produced;
otherwise the party with the smaller amount pays the party with the larger
amount the difference, rendered as "<payer> moet €<diff> aan <payee>
betalen.". -/
theorem c3_two_party (r1 r2 : Row) (A : ℚ) (hD : totalKm [r1, r2] > 0) :
    ∀ a b : Share, computed [r1, r2] A = [a, b] →
      (round2 |a.euros - b.euros| = 0 ↔ a.euros = b.euros) ∧
      (a.euros = b.euros →
        summary [r1, r2] A = "Geen betaling nodig — bedragen zijn gelijk.") ∧
      (a.euros < b.euros →
        summary [r1, r2] A = a.name ++ " moet €" ++
          renderNum (round2 |a.euros - b.euros|) ++ " aan " ++ b.name ++ " betalen.") ∧
      (b.euros < a.euros →
        summary [r1, r2] A = b.name ++ " moet €" ++
          renderNum (round2 |a.euros - b.euros|) ++ " aan " ++ a.name ++ " betalen.") := by
  intro a b hab
  have hcent : ∀ s ∈ computed [r1, r2] A, ∃ m : ℤ, s.euros = (m : ℚ) / 100 := by
    intro s hs
    rw [computed_eq_map] at hs
    simp only [List.mem_map] at hs
    obtain ⟨r, _, rfl⟩ := hs
    show ∃ m : ℤ, (if totalKm [r1, r2] > 0 then
      round2 (A * r.km / totalKm [r1, r2]) else 0) = (m : ℚ) / 100
    rw [if_pos hD]
    exact round2_isCent _
  obtain ⟨ma, hma⟩ := hcent a (hab ▸ List.mem_cons_self a [b])
  obtain ⟨mb, hmb⟩ := hcent b (hab ▸ List.mem_cons_of_mem a (List.mem_cons_self b []))
  have hdiff : round2 |a.euros - b.euros| = |a.euros - b.euros| := by
    have h1 : |a.euros - b.euros| = ((|ma - mb| : ℤ) : ℚ) / 100 := by
      rw [hma, hmb, div_sub_div_same, ← Int.cast_sub, abs_div, Int.cast_abs]
      norm_num
    rw [h1, round2_cent]
  have hiff : round2 |a.euros - b.euros| = 0 ↔ a.euros = b.euros := by
    rw [hdiff, abs_eq_zero, sub_eq_zero]
  have hsum : summary [r1, r2] A =
      (if round2 |a.euros - b.euros| = 0 then
        "Geen betaling nodig — bedragen zijn gelijk."
      else if a.euros > b.euros then
        b.name ++ " moet €" ++ renderNum (round2 (a.euros - b.euros)) ++ " aan " ++
          a.name ++ " betalen."
      else
        a.name ++ " moet €" ++ renderNum (round2 (b.euros - a.euros)) ++ " aan " ++
          b.name ++ " betalen.") := by
    rw [summary, if_pos ⟨rfl, hD⟩, hab]
  refine ⟨hiff, fun heq => ?_, fun hlt => ?_, fun hgt => ?_⟩
  · rw [hsum, if_pos (hiff.mpr heq)]
  · have hne : ¬round2 |a.euros - b.euros| = 0 := fun hz => absurd (hiff.mp hz)
      (ne_of_lt hlt)
    rw [hsum, if_neg hne, if_neg (asymm hlt),
      show round2 (b.euros - a.euros) = round2 |a.euros - b.euros| from
        congrArg round2 (by rw [abs_sub_comm, abs_of_pos (sub_pos.mpr hlt)])]
  · have hne : ¬round2 |a.euros - b.euros| = 0 := fun hz => absurd (hiff.mp hz)
      (ne_of_gt hgt)
    rw [hsum, if_neg hne, if_pos hgt,
      show round2 (a.euros - b.euros) = round2 |a.euros - b.euros| from
        congrArg round2 (abs_of_pos (sub_pos.mpr hgt)).symm]

theorem c3_two_party_witness :
    summary [⟨"A", (150 : ℚ)⟩, ⟨"B", 50⟩] 100 = "B moet €50 aan A betalen." := by
  have h := c3_two_party ⟨"A", 150⟩ ⟨"B", 50⟩ 100 (by with_unfolding_all decide)
    ⟨"A", 150, 75, 75⟩ ⟨"B", 50, 25, 25⟩ (by with_unfolding_all decide)
  exact (h.2.2.2 (by with_unfolding_all decide)).trans (by with_unfolding_all decide)

/-! Summary-text claim -/

theorem foldl_append_eq_join (l : List String) :
    ∀ s : String, l.foldl (fun a b => a ++ b) s = s ++ String.join l := by
  induction l with
  | nil => intro s; exact (String.append_empty s).symm
  | cons x t ih =>
    intro s
    have hj : String.join (x :: t) = x ++ String.join t := by
      show (x :: t).foldl (fun a b => a ++ b) "" = x ++ String.join t
      rw [List.foldl_cons, String.empty_append, ih x]
    rw [List.foldl_cons, ih (s ++ x), hj, String.append_assoc]

/-- C8: the copyable text is exactly the fixed layout — header line with
the total amount, blank line, one line per share in order, blank line, and
the "Samenvatting:" line with the directive sentence — shown both as a
structural identity and on a concrete two-party run. -/
theorem c8_copy_text (A : ℚ) (shares : List Share) (s : String) :
    copyTikkieText A shares s =
      "Tankbeurt — totaal €" ++ renderNum A ++ "\n\n" ++
        String.join (shares.map shareLine) ++ "\nSamenvatting: " ++ s ∧
    copyTikkieText 100 (computed [⟨"A", 150⟩, ⟨"B", 50⟩] 100)
        (summary [⟨"A", 150⟩, ⟨"B", 50⟩] 100) =
      "Tankbeurt — totaal €100\n\nA: 150 km — 75% — €75\nB: 50 km — 25% — €25\n\nSamenvatting: B moet €50 aan A betalen." := by
  constructor
  · rw [copyTikkieText, ← List.foldl_map shareLine (fun a b => a ++ b),
      foldl_append_eq_join, String.append_assoc, String.append_assoc]
  · with_unfolding_all decide

end TankSplit
